import Mathlib

/-!
Shallow embedding of `alphazero/Coach.py`: the iteration-control / model-gating
state machine (`Coach.learn`, `Coach.compareToPast`), the training-window
computation (`Coach.train`), the sample persistence (`Coach.saveIterationSamples`),
and the batched-inference coordinator loop (`Coach.processSelfPlayBatches`).

Python machine details modelled explicitly: `max(0, i - f)` becomes truncated
`Nat` subtraction; Python `//` on non-negative ints becomes `Nat` division;
float win rates become `ℚ` (the comparisons the gate performs are order
comparisons at plain decimal constants); the Python truthiness test on
`args.max_gating_iters` (which may be `None` or an int) becomes a match on
`Option Nat`; the `raise UserWarning` in `compareToPast` becomes an `aborted`
outcome. Side effects (checkpoint loads/removals, arena play) are recorded as
an explicit event trace.
-/

namespace AlphaZeroCoach

/-- The configuration fields of `args` that the embedded code reads
(from `DEFAULT_ARGS` / `dotdict` in Coach.py). `max_gating_iters` is
`Option Nat` because Python allows `None` there and the gate tests its
truthiness before comparing. -/
structure Args where
  model_gating : Bool
  max_gating_iters : Option Nat
  min_next_model_winrate : ℚ
  pastCompareFreq : Nat
  arenaBatched : Bool
  arenaMCTS : Bool
  arenaCompare : Nat
  numItersForTrainExamplesHistory : Nat
deriving DecidableEq, Repr

/-- The mutable controller state read and written by the gating logic:
`self.current_iter` and `self.gating_counter`. -/
structure GatingState where
  current_iter : Nat
  gating_counter : Nat
deriving DecidableEq, Repr

/-- Observable side effects of `compareToPast`, in program order:
`self.pnet.load_checkpoint(past)`, `arena.play_games(n)`,
`self.nnet.load_checkpoint(past)`, `os.remove(checkpoint(i))`. -/
inductive Event where
  | loadPnet (idx : Nat)
  | playGames (n : Nat)
  | loadNnet (idx : Nat)
  | removeCheckpoint (idx : Nat)
deriving DecidableEq, Repr

/-- The gate condition of Coach.py lines 324-329:
`self.args.model_gating and winrate < self.args.min_next_model_winrate and
self.args.max_gating_iters and self.gating_counter <= self.args.max_gating_iters`.
Python `and` short-circuits, so when `max_gating_iters` is `None` the final
comparison is never evaluated; truthiness of an int is `≠ 0`. -/
def gateCond (args : Args) (winrate : ℚ) (counter : Nat) : Bool :=
  args.model_gating && decide (winrate < args.min_next_model_winrate) &&
    (match args.max_gating_iters with
     | none => false
     | some m => !(m == 0) && decide (counter ≤ m))

/-- The model-gating block of `compareToPast` (Coach.py lines 323-336), given
the win rate the arena returned, the current iteration and the past index.
Rejection: reload checkpoint `past` into the live network, remove checkpoint
`iteration`, set `current_iter := past`, increment `gating_counter`.
Acceptance: `gating_counter := 0`, no filesystem or network effects. -/
def modelGating (args : Args) (winrate : ℚ) (iteration past : Nat)
    (st : GatingState) : GatingState × List Event :=
  if gateCond args winrate st.gating_counter then
    (⟨past, st.gating_counter + 1⟩,
      [Event.loadNnet past, Event.removeCheckpoint iteration])
  else
    (⟨st.current_iter, 0⟩, [])

/-- Result of `compareToPast`: `aborted` when the `raise UserWarning` on
Coach.py line 301 fires (the mutation `self.args.arenaMCTS = True` on line 300
has already happened, so the mutated args are carried), otherwise `finished`
with the post-gating state.  The event list records the side effects that
occurred, in order. -/
inductive CompareOutcome where
  | aborted (args : Args) (events : List Event)
  | finished (args : Args) (st : GatingState) (events : List Event)
deriving DecidableEq, Repr

/-- `Coach.compareToPast(iteration)` (Coach.py lines 293-336).
`past = max(0, iteration - pastCompareFreq)` is truncated `Nat` subtraction.
The arena's win rate is an input (the arena itself is an external
collaborator); it is only consulted after the configuration check passes. -/
def compareToPast (args : Args) (st : GatingState) (iteration : Nat)
    (winrate : ℚ) : CompareOutcome :=
  let past := iteration - args.pastCompareFreq
  if args.arenaBatched && !args.arenaMCTS then
    CompareOutcome.aborted { args with arenaMCTS := true } [Event.loadPnet past]
  else
    let g := modelGating args winrate iteration past st
    CompareOutcome.finished args g.1
      ([Event.loadPnet past, Event.playGames args.arenaCompare] ++ g.2)

/-- The end of one `learn`-loop body (Coach.py line 156):
`self.current_iter += 1`. -/
def learnStepEnd (st : GatingState) : GatingState :=
  { st with current_iter := st.current_iter + 1 }

/-- One `learn`-loop iteration's effect on the gating state when
`compareToPast` runs: `i = self.current_iter` is read at the top of the loop
(line 125), the gating block runs with `past = i - pastCompareFreq`, and the
loop increments `current_iter` at the end (line 156). -/
def learnGateIter (args : Args) (st : GatingState) (winrate : ℚ) : GatingState :=
  learnStepEnd
    (modelGating args winrate st.current_iter
      (st.current_iter - args.pastCompareFreq) st).1

/-- Repeated `learn`-loop iterations, one arena win rate per iteration. -/
def runGating (args : Args) : GatingState → List ℚ → GatingState
  | st, [] => st
  | st, w :: ws => runGating args (learnGateIter args st w) ws

/-- The sliding-window size of `Coach.train` (Coach.py lines 265-268):
`min(max(4, (iteration + 4) // 2), numItersForTrainExamplesHistory)`. -/
def currentHistorySize (args : Args) (iteration : Nat) : Nat :=
  min (max 4 ((iteration + 4) / 2)) args.numItersForTrainExamplesHistory

/-- The shard iterations `Coach.train` loads (Coach.py line 269):
`range(max(1, iteration - currentHistorySize), iteration + 1)`, i.e. the
list `[max(1, i - w), ..., i]`. -/
def trainLoadedIters (args : Args) (iteration : Nat) : List Nat :=
  List.range' (max 1 (iteration - currentHistorySize args iteration))
    (iteration + 1 - max 1 (iteration - currentHistorySize args iteration))

/-- The clamp the spec describes for the training window, written from the
spec's words: `clamp(lo, x, hi)` = `min(max(lo, x), hi)`. -/
def clampSpec (lo x hi : Nat) : Nat :=
  min (max lo x) hi

/-- A persisted iteration shard: the three parallel arrays written by
`saveIterationSamples` (`-data.pkl`, `-policy.pkl`, `-value.pkl`). -/
structure Shard (ObsT PolT Val : Type) where
  data : List ObsT
  policy : List PolT
  value : List Val
deriving DecidableEq, Repr

/-- `Coach.saveIterationSamples` (Coach.py lines 232-249): dequeues the
`num_samples` queued `(data, policy, value)` triples in FIFO order and writes
row `i` of each of the three tensors from the `i`-th triple.  `obsConv` models
`torch.from_numpy(data.astype(np.float32))` and `polConv` models
`torch.tensor(policy)`; the value is stored as-is (`value_tensor[i, 0] = value`). -/
def saveIterationSamples {Obs Pol Val ObsT PolT : Type}
    (obsConv : Obs → ObsT) (polConv : Pol → PolT)
    (queue : List (Obs × Pol × Val)) : Shard ObsT PolT Val :=
  { data := queue.map (fun s => obsConv s.1)
    policy := queue.map (fun s => polConv s.2.1)
    value := queue.map (fun s => s.2.2) }

/-- The shard store keyed by iteration index (the three `torch.save` calls;
`torch.load` returns what was saved). -/
def writeShard {ObsT PolT Val : Type}
    (store : Nat → Option (Shard ObsT PolT Val)) (i : Nat)
    (sh : Shard ObsT PolT Val) : Nat → Option (Shard ObsT PolT Val) :=
  fun j => if j = i then some sh else store j

/-- Reading a shard back from the store (what `train` does per window index). -/
def readShard {ObsT PolT Val : Type}
    (store : Nat → Option (Shard ObsT PolT Val)) (i : Nat) :
    Option (Shard ObsT PolT Val) :=
  store i

/-- The coordinator-visible state of `processSelfPlayBatches`: per-worker
policy/value tensors, per-worker `batch_ready` events, and how many times the
network evaluation ran on each worker's slot. -/
structure SPState (Pol Val : Type) where
  policyT : Nat → Pol
  valueT : Nat → Val
  ready : Nat → Bool
  evalCount : Nat → Nat

/-- One body of the `while` loop of `processSelfPlayBatches` (Coach.py lines
196-203) after the completion check: either the `ready_queue.get` timed out
(`none`: the `except Empty: pass` path, no state change) or it returned a
worker id (`some id`: run `nnet.process` on that worker's input tensor, copy
the policy and value into that worker's tensors, set its `batch_ready` event).
`inputs id` is worker `id`'s input tensor and `evalFn` is `nnet.process`. -/
def spStep {Input Pol Val : Type} (evalFn : Input → Pol × Val)
    (inputs : Nat → Input) (s : SPState Pol Val) :
    Option Nat → SPState Pol Val
  | none => s
  | some id =>
    { policyT := fun j => if j = id then (evalFn (inputs id)).1 else s.policyT j
      valueT := fun j => if j = id then (evalFn (inputs id)).2 else s.valueT j
      ready := fun j => if j = id then true else s.ready j
      evalCount := fun j => if j = id then s.evalCount j + 1 else s.evalCount j }

/-- `Coach.processSelfPlayBatches` (Coach.py lines 189-214) as a function of a
finite trace of loop observations: each trace entry is the value of
`self.completed.value` read by the `while` condition paired with the outcome
of `ready_queue.get(timeout=1)` (`none` = `Empty`).  The loop exits (result
flag `true`) exactly when the completion counter read equals `workers`;
an exhausted trace with the loop still running returns flag `false`. -/
def processSelfPlayBatches {Input Pol Val : Type} (workers : Nat)
    (evalFn : Input → Pol × Val) (inputs : Nat → Input) :
    List (Nat × Option Nat) → SPState Pol Val → SPState Pol Val × Bool
  | [], s => (s, false)
  | (c, pop) :: rest, s =>
    if c = workers then (s, true)
    else processSelfPlayBatches workers evalFn inputs rest
      (spStep evalFn inputs s pop)

/-- The worker ids whose notifications the loop actually services on a trace:
pops taken on loop bodies that run (completion counter not yet at `workers`),
up to the first exit check. -/
def processedPops (workers : Nat) : List (Nat × Option Nat) → List Nat
  | [] => []
  | (c, pop) :: rest =>
    if c = workers then [] else pop.toList ++ processedPops workers rest

/-- The relevant values of `DEFAULT_ARGS` (Coach.py lines 43-54):
`model_gating=True`, `max_gating_iters=3`, `min_next_model_winrate=0.52`,
`pastCompareFreq=1`, `arenaBatched=True`, `arenaMCTS=True`,
`arenaCompare=32*4`, `numItersForTrainExamplesHistory=10`. -/
def defaultGateArgs : Args :=
  { model_gating := true
    max_gating_iters := some 3
    min_next_model_winrate := 52/100
    pastCompareFreq := 1
    arenaBatched := true
    arenaMCTS := true
    arenaCompare := 128
    numItersForTrainExamplesHistory := 10 }

/-- C1: with `arenaBatched = true` and `arenaMCTS = false`, `compareToPast`
does set `arenaMCTS := true` but then raises `UserWarning` as an exception and
aborts after only the `pnet` checkpoint load: no arena games are played, even
though the warning text itself says it is "continuing with batched MCTS in
arena". -/
theorem compareToPast_batched_without_mcts_aborts :
    compareToPast { defaultGateArgs with arenaMCTS := false } ⟨5, 0⟩ 5 (9/10) =
      CompareOutcome.aborted { defaultGateArgs with arenaMCTS := true }
        [Event.loadPnet 4] ∧
    Event.playGames 128 ∉ [Event.loadPnet 4] :=
  ⟨rfl, by decide⟩

/-- C2 counterexample: with `max_gating_iters = 3`, `gating_counter = 3`,
win rate `0.40 < 0.52`, the gate condition `gating_counter <= max_gating_iters`
is still true, so the rejection branch fires: the past checkpoint is reloaded,
the new checkpoint is removed, `gating_counter` becomes 4, and the learn-loop
iteration leaves `current_iter` at 5 — not the force-accept to `⟨6, 0⟩` the
claim predicts. -/
theorem gating_at_bound_rejects :
    modelGating defaultGateArgs (40/100) 5 4 ⟨5, 3⟩ =
      (⟨4, 4⟩, [Event.loadNnet 4, Event.removeCheckpoint 5]) ∧
    learnGateIter defaultGateArgs ⟨5, 3⟩ (40/100) = ⟨5, 4⟩ ∧
    learnGateIter defaultGateArgs ⟨5, 3⟩ (40/100) ≠ ⟨6, 0⟩ := by
  have hcond : gateCond defaultGateArgs (40/100) 3 = true := by
    norm_num [gateCond, defaultGateArgs]
  have hpf : defaultGateArgs.pastCompareFreq = 1 := rfl
  have h1 : modelGating defaultGateArgs (40/100) 5 4 ⟨5, 3⟩ =
      (⟨4, 4⟩, [Event.loadNnet 4, Event.removeCheckpoint 5]) := by
    simp [modelGating, hcond]
  have h2 : learnGateIter defaultGateArgs ⟨5, 3⟩ (40/100) = ⟨5, 4⟩ := by
    simp [learnGateIter, learnStepEnd, modelGating, hpf, hcond]
  exact ⟨h1, h2, by rw [h2]; decide⟩

/-- C2 amended: force-accept happens once `gating_counter` has exceeded the
bound, i.e. at `gating_counter = 4` when `max_gating_iters = 3`: the gate
condition fails, the accept branch runs (no reload, no deletion),
`gating_counter` resets to 0 and `current_iter` advances by 1 over the
enclosing learn-loop iteration. -/
theorem gating_force_accept_after_bound (args : Args) (st : GatingState)
    (w : ℚ) (i past : Nat)
    (hg : args.model_gating = true)
    (hm : args.max_gating_iters = some 3)
    (hw : w < args.min_next_model_winrate)
    (hc : st.gating_counter = 4) :
    modelGating args w i past st = (⟨st.current_iter, 0⟩, []) ∧
    learnGateIter args st w = ⟨st.current_iter + 1, 0⟩ := by
  have hcond : gateCond args w st.gating_counter = false := by
    simp [gateCond, hm, hc]
  refine ⟨?_, ?_⟩ <;>
    simp [modelGating, learnGateIter, learnStepEnd, hcond]

/-- Witness for `gating_force_accept_after_bound` at the default args,
`st = ⟨5, 4⟩`, win rate `0.40`. -/
theorem gating_force_accept_after_bound_witness :
    modelGating defaultGateArgs (40/100) 5 4 ⟨5, 4⟩ = (⟨5, 0⟩, []) ∧
    learnGateIter defaultGateArgs ⟨5, 4⟩ (40/100) = ⟨6, 0⟩ :=
  gating_force_accept_after_bound defaultGateArgs ⟨5, 4⟩ (40/100) 5 4
    rfl rfl (by norm_num [defaultGateArgs]) rfl

/-- C4 (Scenario B): gating enabled, threshold `0.52`, win rate `0.40`,
`gating_counter = 0`, `max_gating_iters = 3`, `pastCompareFreq = 1`: the
rejection branch reloads checkpoint `i-1` into the live network, removes
checkpoint `i`, sets `gating_counter := 1`, and after the learn loop's
increment `current_iter` is unchanged at `i`. -/
theorem gating_scenario_b (args : Args) (st : GatingState)
    (hg : args.model_gating = true)
    (hmin : args.min_next_model_winrate = 52/100)
    (hmax : args.max_gating_iters = some 3)
    (hfreq : args.pastCompareFreq = 1)
    (hc : st.gating_counter = 0)
    (hi : 1 ≤ st.current_iter) :
    modelGating args (40/100) st.current_iter (st.current_iter - 1) st =
      (⟨st.current_iter - 1, 1⟩,
        [Event.loadNnet (st.current_iter - 1),
         Event.removeCheckpoint st.current_iter]) ∧
    learnGateIter args st (40/100) = ⟨st.current_iter, 1⟩ := by
  have hcond : gateCond args (40/100) 0 = true := by
    norm_num [gateCond, hg, hmin, hmax]
  constructor
  · simp [modelGating, hc, hcond]
  · simp [learnGateIter, learnStepEnd, modelGating, hc, hcond, hfreq]
    omega

/-- Witness for `gating_scenario_b` at the default args and `st = ⟨5, 0⟩`. -/
theorem gating_scenario_b_witness :
    modelGating defaultGateArgs (40/100) 5 4 ⟨5, 0⟩ =
      (⟨4, 1⟩, [Event.loadNnet 4, Event.removeCheckpoint 5]) ∧
    learnGateIter defaultGateArgs ⟨5, 0⟩ (40/100) = ⟨5, 1⟩ :=
  gating_scenario_b defaultGateArgs ⟨5, 0⟩ rfl rfl rfl rfl rfl (by decide)

/-- C5: whenever the arena win rate is at least `min_next_model_winrate`, the
accept branch is taken for every prior `gating_counter`: `compareToPast`
leaves `current_iter` untouched, resets `gating_counter` to 0, performs no
reload or deletion, and the learn loop's increment advances `current_iter`
by exactly 1. -/
theorem gating_accepts_at_threshold (args : Args) (st : GatingState) (w : ℚ)
    (i past : Nat) (hw : args.min_next_model_winrate ≤ w) :
    modelGating args w i past st = (⟨st.current_iter, 0⟩, []) ∧
    learnGateIter args st w = ⟨st.current_iter + 1, 0⟩ := by
  have hcond : ∀ c : Nat, gateCond args w c = false := by
    intro c
    simp [gateCond, not_lt.2 hw]
  refine ⟨?_, ?_⟩ <;>
    simp [modelGating, learnGateIter, learnStepEnd, hcond]

/-- Witness for `gating_accepts_at_threshold`: win rate `0.60 ≥ 0.52`,
prior counter 2. -/
theorem gating_accepts_at_threshold_witness :
    modelGating defaultGateArgs (60/100) 5 4 ⟨5, 2⟩ = (⟨5, 0⟩, []) ∧
    learnGateIter defaultGateArgs ⟨5, 2⟩ (60/100) = ⟨6, 0⟩ :=
  gating_accepts_at_threshold defaultGateArgs ⟨5, 2⟩ (60/100) 5 4
    (by norm_num [defaultGateArgs])

/-- C10: the gate condition also tests the Python truthiness of
`max_gating_iters`, so `max_gating_iters = 0` disables gating entirely: even
with gating enabled and a win rate below the threshold, the accept branch is
taken — no reload, no deletion, `gating_counter := 0` — and the learn loop
advances `current_iter` by 1. -/
theorem gating_disabled_when_max_iters_zero (args : Args) (st : GatingState)
    (w : ℚ) (i past : Nat)
    (hg : args.model_gating = true)
    (hw : w < args.min_next_model_winrate)
    (hmax : args.max_gating_iters = some 0) :
    modelGating args w i past st = (⟨st.current_iter, 0⟩, []) ∧
    learnGateIter args st w = ⟨st.current_iter + 1, 0⟩ := by
  have hcond : ∀ c : Nat, gateCond args w c = false := by
    intro c
    simp [gateCond, hmax]
  refine ⟨?_, ?_⟩ <;>
    simp [modelGating, learnGateIter, learnStepEnd, hcond]

/-- Witness for `gating_disabled_when_max_iters_zero`: default args with
`max_gating_iters := 0`, win rate `0.40 < 0.52`. -/
theorem gating_disabled_when_max_iters_zero_witness :
    modelGating { defaultGateArgs with max_gating_iters := some 0 }
      (40/100) 5 4 ⟨5, 0⟩ = (⟨5, 0⟩, []) ∧
    learnGateIter { defaultGateArgs with max_gating_iters := some 0 }
      ⟨5, 0⟩ (40/100) = ⟨6, 0⟩ :=
  gating_disabled_when_max_iters_zero _ ⟨5, 0⟩ (40/100) 5 4
    rfl (by norm_num [defaultGateArgs]) rfl

/-- The gate condition only passes while the counter is at most the bound. -/
theorem gateCond_le_of_true (args : Args) (m : Nat)
    (hm : args.max_gating_iters = some m) (w : ℚ) (c : Nat)
    (h : gateCond args w c = true) : c ≤ m := by
  simp [gateCond, hm] at h
  exact h.2.2

/-- One learn-loop iteration preserves `gating_counter ≤ m + 1`. -/
theorem learnGateIter_counter_le (args : Args) (m : Nat)
    (hm : args.max_gating_iters = some m) (st : GatingState) (w : ℚ)
    (h : st.gating_counter ≤ m + 1) :
    (learnGateIter args st w).gating_counter ≤ m + 1 := by
  cases hb : gateCond args w st.gating_counter with
  | false => simp [learnGateIter, learnStepEnd, modelGating, hb]
  | true =>
    have hle := gateCond_le_of_true args m hm w st.gating_counter hb
    simp [learnGateIter, learnStepEnd, modelGating, hb]
    omega

/-- Any number of learn-loop iterations preserves `gating_counter ≤ m + 1`. -/
theorem runGating_counter_le (args : Args) (m : Nat)
    (hm : args.max_gating_iters = some m) (ws : List ℚ) (st : GatingState)
    (h : st.gating_counter ≤ m + 1) :
    (runGating args st ws).gating_counter ≤ m + 1 := by
  induction ws generalizing st with
  | nil => simpa [runGating] using h
  | cons w ws ih =>
    exact ih (learnGateIter args st w) (learnGateIter_counter_le args m hm st w h)

/-- C3: with `max_gating_iters = m`, starting from `gating_counter = 0` the
counter never exceeds `m + 1` over any run of learn-loop iterations; the
rejection branch can only fire while `gating_counter ≤ m`; and once the
counter has exceeded `m` the next gating decision takes the accept branch
(counter reset to 0, no effects) regardless of win rate. -/
theorem gating_counter_bounded (args : Args) (m : Nat)
    (hm : args.max_gating_iters = some m) :
    (∀ (ws : List ℚ) (st : GatingState), st.gating_counter = 0 →
        (runGating args st ws).gating_counter ≤ m + 1) ∧
    (∀ (w : ℚ) (c : Nat), gateCond args w c = true → c ≤ m) ∧
    (∀ (w : ℚ) (i past : Nat) (st : GatingState), m < st.gating_counter →
        modelGating args w i past st = (⟨st.current_iter, 0⟩, [])) := by
  refine ⟨?_, gateCond_le_of_true args m hm, ?_⟩
  · intro ws st h0
    exact runGating_counter_le args m hm ws st (by omega)
  · intro w i past st hgt
    cases hb : gateCond args w st.gating_counter with
    | false => simp [modelGating, hb]
    | true =>
      exact absurd (gateCond_le_of_true args m hm w st.gating_counter hb)
        (by omega)

/-- Witness for `gating_counter_bounded`: six straight losing iterations from
`⟨1, 0⟩` under the default args keep the counter at most 4. -/
theorem gating_counter_bounded_witness :
    (runGating defaultGateArgs ⟨1, 0⟩
      [40/100, 40/100, 40/100, 40/100, 40/100, 40/100]).gating_counter ≤ 4 :=
  (gating_counter_bounded defaultGateArgs 3 rfl).1
    [40/100, 40/100, 40/100, 40/100, 40/100, 40/100] ⟨1, 0⟩ rfl

/-- C6: the training window equals the spec's
`clamp(4, (iteration+4)//2, numItersForTrainExamplesHistory)`, the shards
loaded are exactly the iterations from `max(1, iteration - window)` to
`iteration` inclusive, and at `iteration = 2` with history cap 10 the window
is 4 and exactly the shards for iterations 1 and 2 are loaded. -/
theorem train_window_spec (args : Args) (iteration : Nat) :
    currentHistorySize args iteration =
      clampSpec 4 ((iteration + 4) / 2) args.numItersForTrainExamplesHistory ∧
    (∀ j : Nat, j ∈ trainLoadedIters args iteration ↔
      max 1 (iteration - currentHistorySize args iteration) ≤ j ∧
        j ≤ iteration) ∧
    currentHistorySize defaultGateArgs 2 = 4 ∧
    trainLoadedIters defaultGateArgs 2 = [1, 2] := by
  refine ⟨rfl, ?_, rfl, rfl⟩
  intro j
  rw [trainLoadedIters, List.mem_range'_1]
  constructor
  · rintro ⟨h1, h2⟩
    exact ⟨h1, by omega⟩
  · rintro ⟨h1, h2⟩
    exact ⟨h1, by omega⟩

/-- C8: `saveIterationSamples` writes three arrays of length equal to the
number of queued samples, row `k` of each coming from the `k`-th dequeued
triple; reading the shard back from the store (as `train` does) returns
exactly those arrays, so the element-wise observation/policy/value
correspondence is preserved with no reordering. -/
theorem saveIterationSamples_roundtrip {Obs Pol Val ObsT PolT : Type}
    (obsConv : Obs → ObsT) (polConv : Pol → PolT)
    (queue : List (Obs × Pol × Val))
    (store : Nat → Option (Shard ObsT PolT Val)) (i : Nat) :
    readShard (writeShard store i (saveIterationSamples obsConv polConv queue))
        i = some (saveIterationSamples obsConv polConv queue) ∧
    (saveIterationSamples obsConv polConv queue).data.length = queue.length ∧
    (saveIterationSamples obsConv polConv queue).policy.length = queue.length ∧
    (saveIterationSamples obsConv polConv queue).value.length = queue.length ∧
    ∀ k : Nat,
      (saveIterationSamples obsConv polConv queue).data[k]? =
        Option.map (fun smp => obsConv smp.1) queue[k]? ∧
      (saveIterationSamples obsConv polConv queue).policy[k]? =
        Option.map (fun smp => polConv smp.2.1) queue[k]? ∧
      (saveIterationSamples obsConv polConv queue).value[k]? =
        Option.map (fun smp => smp.2.2) queue[k]? := by
  refine ⟨by simp [readShard, writeShard], by simp [saveIterationSamples],
    by simp [saveIterationSamples], by simp [saveIterationSamples], ?_⟩
  intro k
  refine ⟨?_, ?_, ?_⟩ <;> simp [saveIterationSamples, List.getElem?_map]

/-- C9: whenever the rejection branch of `compareToPast` runs (no
configuration abort, gate condition true, `pastCompareFreq ≥ 1`,
`iteration ≥ 1`), the event trace loads checkpoint
`past = iteration - pastCompareFreq` into the live network strictly before
removing checkpoint `iteration`, `past < iteration`, and the checkpoint that
remains the current load target (`past`) is never removed. -/
theorem compareToPast_delete_after_rollback (args : Args) (st : GatingState)
    (i : Nat) (w : ℚ)
    (hcfg : (args.arenaBatched && !args.arenaMCTS) = false)
    (hgate : gateCond args w st.gating_counter = true)
    (hfreq : 1 ≤ args.pastCompareFreq) (hi : 1 ≤ i) :
    ∃ pre mid : List Event,
      compareToPast args st i w =
        CompareOutcome.finished args
          ⟨i - args.pastCompareFreq, st.gating_counter + 1⟩
          (pre ++ Event.loadNnet (i - args.pastCompareFreq) ::
            (mid ++ [Event.removeCheckpoint i])) ∧
      i - args.pastCompareFreq < i ∧
      Event.removeCheckpoint (i - args.pastCompareFreq) ∉
        (pre ++ Event.loadNnet (i - args.pastCompareFreq) ::
          (mid ++ [Event.removeCheckpoint i])) := by
  refine ⟨[Event.loadPnet (i - args.pastCompareFreq),
    Event.playGames args.arenaCompare], [], ?_, by omega, ?_⟩
  · simp [compareToPast, hcfg, modelGating, hgate]
  · intro hmem
    simp at hmem
    omega

/-- Witness for `compareToPast_delete_after_rollback` at the default args,
iteration 5, win rate `0.40`, counter 0. -/
theorem compareToPast_delete_after_rollback_witness :
    ∃ pre mid : List Event,
      compareToPast defaultGateArgs ⟨5, 0⟩ 5 (40/100) =
        CompareOutcome.finished defaultGateArgs ⟨4, 1⟩
          (pre ++ Event.loadNnet 4 :: (mid ++ [Event.removeCheckpoint 5])) ∧
      4 < 5 ∧
      Event.removeCheckpoint 4 ∉
        (pre ++ Event.loadNnet 4 :: (mid ++ [Event.removeCheckpoint 5])) :=
  compareToPast_delete_after_rollback defaultGateArgs ⟨5, 0⟩ 5 (40/100)
    rfl (by norm_num [gateCond, defaultGateArgs]) (by decide) (by decide)

/-- Evaluation count accounting for the coordinator loop: each serviced
notification for a worker id adds exactly one evaluation on that worker. -/
theorem sp_run_evalCount {Input Pol Val : Type} (W : Nat)
    (f : Input → Pol × Val) (g : Nat → Input)
    (trace : List (Nat × Option Nat)) (s : SPState Pol Val) (id : Nat) :
    ((processSelfPlayBatches W f g trace s).1).evalCount id =
      s.evalCount id + (processedPops W trace).count id := by
  induction trace generalizing s with
  | nil => simp [processSelfPlayBatches, processedPops]
  | cons hd tl ih =>
    obtain ⟨c, pop⟩ := hd
    by_cases hc : c = W
    · simp [processSelfPlayBatches, processedPops, hc]
    · cases pop with
      | none =>
        simpa [processSelfPlayBatches, processedPops, hc, spStep]
          using ih (spStep f g s none)
      | some j =>
        have htl := ih (spStep f g s (some j))
        simp [processSelfPlayBatches, processedPops, hc, List.count_cons]
        rw [htl]
        by_cases hj : j = id
        · subst hj
          simp [spStep]
          omega
        · have hj2 : ¬ id = j := fun hEq => hj hEq.symm
          simp [spStep, hj, hj2]

/-- Policy write-back accounting: once at least one notification for a worker
has been serviced, that worker's policy tensor holds the evaluation result of
its own input tensor. -/
theorem sp_run_policyT {Input Pol Val : Type} (W : Nat)
    (f : Input → Pol × Val) (g : Nat → Input)
    (trace : List (Nat × Option Nat)) (s : SPState Pol Val) (id : Nat) :
    ((processSelfPlayBatches W f g trace s).1).policyT id =
      if 0 < (processedPops W trace).count id then (f (g id)).1
      else s.policyT id := by
  induction trace generalizing s with
  | nil => simp [processSelfPlayBatches, processedPops]
  | cons hd tl ih =>
    obtain ⟨c, pop⟩ := hd
    by_cases hc : c = W
    · simp [processSelfPlayBatches, processedPops, hc]
    · cases pop with
      | none =>
        simpa [processSelfPlayBatches, processedPops, hc, spStep]
          using ih (spStep f g s none)
      | some j =>
        have htl := ih (spStep f g s (some j))
        simp [processSelfPlayBatches, processedPops, hc, List.count_cons]
        rw [htl]
        by_cases hj : j = id
        · subst hj
          simp [spStep]
        · have hj2 : ¬ id = j := fun hEq => hj hEq.symm
          simp [spStep, hj, hj2]

/-- Value write-back accounting, as `sp_run_policyT`. -/
theorem sp_run_valueT {Input Pol Val : Type} (W : Nat)
    (f : Input → Pol × Val) (g : Nat → Input)
    (trace : List (Nat × Option Nat)) (s : SPState Pol Val) (id : Nat) :
    ((processSelfPlayBatches W f g trace s).1).valueT id =
      if 0 < (processedPops W trace).count id then (f (g id)).2
      else s.valueT id := by
  induction trace generalizing s with
  | nil => simp [processSelfPlayBatches, processedPops]
  | cons hd tl ih =>
    obtain ⟨c, pop⟩ := hd
    by_cases hc : c = W
    · simp [processSelfPlayBatches, processedPops, hc]
    · cases pop with
      | none =>
        simpa [processSelfPlayBatches, processedPops, hc, spStep]
          using ih (spStep f g s none)
      | some j =>
        have htl := ih (spStep f g s (some j))
        simp [processSelfPlayBatches, processedPops, hc, List.count_cons]
        rw [htl]
        by_cases hj : j = id
        · subst hj
          simp [spStep]
        · have hj2 : ¬ id = j := fun hEq => hj hEq.symm
          simp [spStep, hj, hj2]

/-- Event accounting: a serviced notification sets that worker's
`batch_ready` event. -/
theorem sp_run_ready {Input Pol Val : Type} (W : Nat)
    (f : Input → Pol × Val) (g : Nat → Input)
    (trace : List (Nat × Option Nat)) (s : SPState Pol Val) (id : Nat) :
    ((processSelfPlayBatches W f g trace s).1).ready id =
      if 0 < (processedPops W trace).count id then true
      else s.ready id := by
  induction trace generalizing s with
  | nil => simp [processSelfPlayBatches, processedPops]
  | cons hd tl ih =>
    obtain ⟨c, pop⟩ := hd
    by_cases hc : c = W
    · simp [processSelfPlayBatches, processedPops, hc]
    · cases pop with
      | none =>
        simpa [processSelfPlayBatches, processedPops, hc, spStep]
          using ih (spStep f g s none)
      | some j =>
        have htl := ih (spStep f g s (some j))
        simp [processSelfPlayBatches, processedPops, hc, List.count_cons]
        rw [htl]
        by_cases hj : j = id
        · subst hj
          simp [spStep]
        · have hj2 : ¬ id = j := fun hEq => hj hEq.symm
          simp [spStep, hj, hj2]

/-- Loop exit accounting: the loop exits exactly when a completion-counter
read equals the worker count. -/
theorem sp_run_done {Input Pol Val : Type} (W : Nat)
    (f : Input → Pol × Val) (g : Nat → Input)
    (trace : List (Nat × Option Nat)) (s : SPState Pol Val) :
    (processSelfPlayBatches W f g trace s).2 = true ↔
      W ∈ trace.map Prod.fst := by
  induction trace generalizing s with
  | nil => simp [processSelfPlayBatches]
  | cons hd tl ih =>
    obtain ⟨c, pop⟩ := hd
    by_cases hc : c = W
    · simp [processSelfPlayBatches, hc]
    · have hc2 : ¬ W = c := fun hEq => hc hEq.symm
      simp [processSelfPlayBatches, hc, hc2, ih]

/-- C7: over any trace of loop observations, (1) the network evaluation runs
exactly once per serviced ready notification, counted per worker; (2) every
worker with a serviced notification has the evaluation of its own input
tensor copied into its policy and value tensors and its `batch_ready` event
set; (3) a timed-out pop changes no state (the loop merely re-checks the
completion counter); (4) the loop exits exactly when the completed-workers
counter read equals `workers`. -/
theorem processSelfPlayBatches_spec {Input Pol Val : Type} (W : Nat)
    (f : Input → Pol × Val) (g : Nat → Input)
    (trace : List (Nat × Option Nat)) (s : SPState Pol Val) :
    (∀ id : Nat, ((processSelfPlayBatches W f g trace s).1).evalCount id =
        s.evalCount id + (processedPops W trace).count id) ∧
    (∀ id : Nat, 0 < (processedPops W trace).count id →
        ((processSelfPlayBatches W f g trace s).1).policyT id = (f (g id)).1 ∧
        ((processSelfPlayBatches W f g trace s).1).valueT id = (f (g id)).2 ∧
        ((processSelfPlayBatches W f g trace s).1).ready id = true) ∧
    (spStep f g s none = s) ∧
    ((processSelfPlayBatches W f g trace s).2 = true ↔
      W ∈ trace.map Prod.fst) := by
  refine ⟨sp_run_evalCount W f g trace s, ?_, rfl, sp_run_done W f g trace s⟩
  intro id h0
  refine ⟨?_, ?_, ?_⟩
  · rw [sp_run_policyT W f g trace s id, if_pos h0]
  · rw [sp_run_valueT W f g trace s id, if_pos h0]
  · rw [sp_run_ready W f g trace s id, if_pos h0]

end AlphaZeroCoach
